import Mathlib

/-!
# XWalkRenderViewHostExt

A shallow embedding of
`runtime/browser/android/renderer_host/xwalk_render_view_host_ext.cc`.

* The member fields of the C++ object become the fields of the structure
  `XWalkRenderViewHostExt`.
* `std::map<int, DocumentHasImagesResult>` becomes `StdMap`: a list of entries
  kept in strictly ascending key order (the iteration order of `std::map`).
* Everything the object does to the outside world (`Send(new Msg(..))`,
  `callback.Run(b)`, calls on browser-side collaborators) is recorded, in
  program order, in a list of `Effect`s.
* The function-local `static int next_id` of `DocumentHasImages` lives outside
  the object and is shared by all instances; it is threaded explicitly and kept
  in `Program`. A call of `DocumentHasImages` on another instance that takes an
  id is the call `OtherInstanceRequest`, which only advances the counter.
  `next_id++` is taken to wrap as a 32-bit two's-complement `int`.
* `web_contents()` belongs to the host framework; the two facts the code reads
  from it (is there a render view host, what is the routing id) are passed to
  each operation as a `WebContents` snapshot.
* `DCHECK(CalledOnValidThread())` is a debug-only threading assertion and is
  not modelled.
-/

namespace xwalk

/-! ## Carriers for host-framework value types -/

/-- C++ `int` arithmetic result, wrapped to 32-bit two's complement. -/
def wrapInt32 (n : Int) : Int := (n + 2147483648) % 4294967296 - 2147483648

/-- A C++ `double`; the code only passes it on, so it is a bit pattern here. -/
structure Double where
  bits : Nat
  deriving DecidableEq, Repr

/-- A C++ `float`; the code only passes it on, so it is a bit pattern here. -/
structure Float32 where
  bits : Nat
  deriving DecidableEq, Repr

/-- Carrier for `gfx::PointF`. -/
structure PointF where
  x : Float32
  y : Float32
  deriving DecidableEq, Repr

/-- Carrier for `gfx::SizeF`. -/
structure SizeF where
  width : Float32
  height : Float32
  deriving DecidableEq, Repr

/-- Carrier for `SkColor` (a 32-bit ARGB value). -/
abbrev SkColor := Nat

/-- Identity of a `base::Callback<void(bool)>` handed to `DocumentHasImages`. -/
structure DocumentHasImagesResult where
  handle : Nat
  deriving DecidableEq, Repr

/-- What the code reads from `web_contents()`: whether `GetRenderViewHost()` is
non-null, and `GetRoutingID()`. -/
structure WebContents where
  hasRenderViewHost : Bool
  routingID : Int
  deriving DecidableEq, Repr

/-! ## Messages and effects -/

/-- The browser-to-renderer messages this file constructs. -/
inductive XWalkViewMsg where
  | DocumentHasImages (routing_id : Int) (id : Int)
  | ClearCache
  | DoHitTest (routing_id : Int) (touch_center : PointF) (touch_area : SizeF)
  | SetTextZoomLevel (routing_id : Int) (level : Double)
  | ResetScrollAndScaleState (routing_id : Int)
  | SetInitialPageScale (routing_id : Int) (page_scale_factor : Double)
  | SetOriginAccessWhitelist (base_url : String) (match_patterns : String)
  | SetJsOnlineProperty (network_up : Bool)
  | SetBackgroundColor (routing_id : Int) (c : SkColor)
  | SetTextZoomFactor (routing_id : Int) (factor : Float32)
  deriving DecidableEq, Repr

/-- The renderer-to-browser messages `OnMessageReceived` can be handed. `H` is
the type `XWalkHitTestData`, declared in a header outside this file. Any
message of another type is `Unhandled`. -/
inductive IPCMessage (H : Type) where
  | XWalkViewHostMsg_DocumentHasImagesResponse (msg_id : Int) (has_images : Bool)
  | XWalkViewHostMsg_UpdateHitTestData (hit_test_data : H)
  | Unhandled (type : Nat) (payload : List Nat)
  deriving DecidableEq, Repr

/-- Everything the object does to its environment. -/
inductive Effect where
  | Send (msg : XWalkViewMsg)
  | Run (callback : DocumentHasImagesResult) (arg : Bool)
  | AddVisitedURLs (redirects : List String)
  | OnWebLayoutPageScaleFactorChanged (page_scale_factor : Float32)
  deriving DecidableEq, Repr

/-! ## `std::map<int, V>` -/

/-- `find` on the entry list. -/
def findEntries {V : Type} (k : Int) : List (Int × V) → Option V
  | [] => none
  | e :: rest => if e.1 = k then some e.2 else findEntries k rest

/-- `m[k] = v` on the entry list: insert in key order, or overwrite. -/
def assignEntries {V : Type} (k : Int) (v : V) : List (Int × V) → List (Int × V)
  | [] => [(k, v)]
  | e :: rest =>
    if k < e.1 then (k, v) :: e :: rest
    else if k = e.1 then (k, v) :: rest
    else e :: assignEntries k v rest

/-- `erase(find(k))` on the entry list: drop the entry found under `k`. -/
def eraseEntries {V : Type} (k : Int) : List (Int × V) → List (Int × V)
  | [] => []
  | e :: rest => if e.1 = k then rest else e :: eraseEntries k rest

theorem mem_assignEntries {V : Type} (k : Int) (v : V) (l : List (Int × V))
    (x : Int × V) (hx : x ∈ assignEntries k v l) : x = (k, v) ∨ x ∈ l := by
  induction l with
  | nil => simpa [assignEntries] using hx
  | cons e rest ih =>
    unfold assignEntries at hx
    split_ifs at hx with h1 h2
    · simpa using hx
    · rcases List.mem_cons.1 hx with h | h
      · exact Or.inl h
      · exact Or.inr (List.mem_cons_of_mem _ h)
    · rcases List.mem_cons.1 hx with h | h
      · exact Or.inr (h ▸ List.mem_cons_self _ _)
      · rcases ih h with h | h
        · exact Or.inl h
        · exact Or.inr (List.mem_cons_of_mem _ h)

theorem pairwise_assignEntries {V : Type} (k : Int) (v : V) (l : List (Int × V))
    (hl : l.Pairwise (fun a b => a.1 < b.1)) :
    (assignEntries k v l).Pairwise (fun a b => a.1 < b.1) := by
  induction l with
  | nil => simp [assignEntries]
  | cons e rest ih =>
    have hc := List.pairwise_cons.1 hl
    unfold assignEntries
    split_ifs with h1 h2
    · refine List.pairwise_cons.2 ⟨?_, hl⟩
      intro b hb
      rcases List.mem_cons.1 hb with h | h
      · subst h; exact h1
      · exact lt_trans h1 (hc.1 b h)
    · refine List.pairwise_cons.2 ⟨?_, hc.2⟩
      intro b hb
      have := hc.1 b hb
      simpa [h2] using this
    · refine List.pairwise_cons.2 ⟨?_, ih hc.2⟩
      intro b hb
      rcases mem_assignEntries k v rest b hb with h | h
      · subst h
        have : e.1 ≤ k := not_lt.1 h1
        exact lt_of_le_of_ne this (fun h => h2 h.symm)
      · exact hc.1 b h

theorem sublist_eraseEntries {V : Type} (k : Int) (l : List (Int × V)) :
    (eraseEntries k l).Sublist l := by
  induction l with
  | nil => simp [eraseEntries]
  | cons e rest ih =>
    unfold eraseEntries
    split_ifs
    · exact List.sublist_cons_self _ _
    · exact ih.cons₂ _

/-- A `std::map<int, V>`: entries in strictly ascending key order. -/
structure StdMap (V : Type) where
  entries : List (Int × V)
  ordered : entries.Pairwise (fun a b => a.1 < b.1)

namespace StdMap

/-- The default-constructed, empty map. -/
def empty {V : Type} : StdMap V := ⟨[], List.Pairwise.nil⟩

/-- `m.find(k)`: the mapped value, or `none` for `m.end()`. -/
def find {V : Type} (m : StdMap V) (k : Int) : Option V := findEntries k m.entries

/-- `m[k] = v`. -/
def assign {V : Type} (m : StdMap V) (k : Int) (v : V) : StdMap V :=
  ⟨assignEntries k v m.entries, pairwise_assignEntries k v m.entries m.ordered⟩

/-- `m.erase(m.find(k))` for a key that was found. -/
def erase {V : Type} (m : StdMap V) (k : Int) : StdMap V :=
  ⟨eraseEntries k m.entries, m.ordered.sublist (sublist_eraseEntries k m.entries)⟩

/-- The keys, in iteration order. -/
def keys {V : Type} (m : StdMap V) : List Int := m.entries.map Prod.fst

end StdMap

/-! ## The object -/

/-- The member fields of `XWalkRenderViewHostExt`. `H` is `XWalkHitTestData`,
whose declaration is in a header outside this file. -/
structure XWalkRenderViewHostExt (H : Type) where
  pending_document_has_images_requests_ : StdMap DocumentHasImagesResult
  last_hit_test_data_ : H
  has_new_hit_test_data_ : Bool
  is_render_view_created_ : Bool
  pending_base_url_ : String
  pending_match_patterns_ : String

namespace XWalkRenderViewHostExt

variable {H : Type}

/-- The constructor: both flags are initialised to `false`; the map, the
hit-test data and the two strings are default-constructed. -/
def create [Inhabited H] : XWalkRenderViewHostExt H where
  pending_document_has_images_requests_ := StdMap.empty
  last_hit_test_data_ := default
  has_new_hit_test_data_ := false
  is_render_view_created_ := false
  pending_base_url_ := ""
  pending_match_patterns_ := ""

/-- `DocumentHasImages(result)`. The first argument and the first component of
the result are the function-local `static int next_id`. -/
def DocumentHasImages (next_id : Int) (s : XWalkRenderViewHostExt H)
    (wc : WebContents) (result : DocumentHasImagesResult) :
    Int × XWalkRenderViewHostExt H × List Effect :=
  if !wc.hasRenderViewHost then
    (next_id, s, [Effect.Run result false])
  else
    let this_id := next_id
    let next_id := wrapInt32 (next_id + 1)
    let s := { s with pending_document_has_images_requests_ :=
                        s.pending_document_has_images_requests_.assign this_id result }
    (next_id, s, [Effect.Send (XWalkViewMsg.DocumentHasImages wc.routingID this_id)])

/-- `ClearCache()`. -/
def ClearCache (s : XWalkRenderViewHostExt H) : XWalkRenderViewHostExt H × List Effect :=
  (s, [Effect.Send XWalkViewMsg.ClearCache])

/-- `HasNewHitTestData()`. -/
def HasNewHitTestData (s : XWalkRenderViewHostExt H) : Bool :=
  s.has_new_hit_test_data_

/-- `MarkHitTestDataRead()`. -/
def MarkHitTestDataRead (s : XWalkRenderViewHostExt H) : XWalkRenderViewHostExt H :=
  { s with has_new_hit_test_data_ := false }

/-- `RequestNewHitTestDataAt(touch_center, touch_area)`. -/
def RequestNewHitTestDataAt (s : XWalkRenderViewHostExt H) (wc : WebContents)
    (touch_center : PointF) (touch_area : SizeF) :
    XWalkRenderViewHostExt H × List Effect :=
  (s, [Effect.Send (XWalkViewMsg.DoHitTest wc.routingID touch_center touch_area)])

/-- `GetLastHitTestData()`. -/
def GetLastHitTestData (s : XWalkRenderViewHostExt H) : H :=
  s.last_hit_test_data_

/-- `SetTextZoomLevel(level)`. -/
def SetTextZoomLevel (s : XWalkRenderViewHostExt H) (wc : WebContents) (level : Double) :
    XWalkRenderViewHostExt H × List Effect :=
  (s, [Effect.Send (XWalkViewMsg.SetTextZoomLevel wc.routingID level)])

/-- `ResetScrollAndScaleState()`. -/
def ResetScrollAndScaleState (s : XWalkRenderViewHostExt H) (wc : WebContents) :
    XWalkRenderViewHostExt H × List Effect :=
  (s, [Effect.Send (XWalkViewMsg.ResetScrollAndScaleState wc.routingID)])

/-- `SetInitialPageScale(page_scale_factor)`. -/
def SetInitialPageScale (s : XWalkRenderViewHostExt H) (wc : WebContents)
    (page_scale_factor : Double) : XWalkRenderViewHostExt H × List Effect :=
  (s, [Effect.Send (XWalkViewMsg.SetInitialPageScale wc.routingID page_scale_factor)])

/-- `RenderViewCreated(render_view_host)`; the argument is not used. -/
def RenderViewCreated (s : XWalkRenderViewHostExt H) :
    XWalkRenderViewHostExt H × List Effect :=
  let out :=
    if !s.pending_base_url_.isEmpty then
      [Effect.Send (XWalkViewMsg.SetOriginAccessWhitelist
        s.pending_base_url_ s.pending_match_patterns_)]
    else []
  ({ s with is_render_view_created_ := true }, out)

/-- `SetJsOnlineProperty(network_up)`. -/
def SetJsOnlineProperty (s : XWalkRenderViewHostExt H) (network_up : Bool) :
    XWalkRenderViewHostExt H × List Effect :=
  (s, [Effect.Send (XWalkViewMsg.SetJsOnlineProperty network_up)])

/-- `RenderProcessGone(status)`: the loop from `begin()` to `end()` running
each mapped callback with `false`; the argument is not used. -/
def RenderProcessGone (s : XWalkRenderViewHostExt H) :
    XWalkRenderViewHostExt H × List Effect :=
  (s, s.pending_document_has_images_requests_.entries.foldl
        (fun out pending_req => out ++ [Effect.Run pending_req.2 false]) [])

/-- `DidNavigateAnyFrame(..)`: hands `params.redirects` to the browser context. -/
def DidNavigateAnyFrame (s : XWalkRenderViewHostExt H) (redirects : List String) :
    XWalkRenderViewHostExt H × List Effect :=
  (s, [Effect.AddVisitedURLs redirects])

/-- `OnPageScaleFactorChanged(page_scale_factor)`; `client_bridge` tells whether
the client bridge looked up from the web contents is non-null. -/
def OnPageScaleFactorChanged (s : XWalkRenderViewHostExt H) (client_bridge : Bool)
    (page_scale_factor : Float32) : XWalkRenderViewHostExt H × List Effect :=
  if client_bridge then
    (s, [Effect.OnWebLayoutPageScaleFactorChanged page_scale_factor])
  else (s, [])

/-- `OnDocumentHasImagesResponse(msg_id, has_images)`. -/
def OnDocumentHasImagesResponse (s : XWalkRenderViewHostExt H) (msg_id : Int)
    (has_images : Bool) : XWalkRenderViewHostExt H × List Effect :=
  match s.pending_document_has_images_requests_.find msg_id with
  | none => (s, [])
  | some callback =>
    ({ s with pending_document_has_images_requests_ :=
                s.pending_document_has_images_requests_.erase msg_id },
     [Effect.Run callback has_images])

/-- `OnUpdateHitTestData(hit_test_data)`. -/
def OnUpdateHitTestData (s : XWalkRenderViewHostExt H) (hit_test_data : H) :
    XWalkRenderViewHostExt H :=
  { s with last_hit_test_data_ := hit_test_data, has_new_hit_test_data_ := true }

/-- `OnMessageReceived(message)`. `baseOnMessageReceived` is
`WebContentsObserver::OnMessageReceived`, which belongs to the host framework.
The message map sets `handled` to `false` only in its unhandled branch. -/
def OnMessageReceived (baseOnMessageReceived : IPCMessage H → Bool)
    (s : XWalkRenderViewHostExt H) (message : IPCMessage H) :
    Bool × XWalkRenderViewHostExt H × List Effect :=
  let (handled, s', out) :=
    match message with
    | IPCMessage.XWalkViewHostMsg_DocumentHasImagesResponse msg_id has_images =>
      let r := OnDocumentHasImagesResponse s msg_id has_images
      (true, r.1, r.2)
    | IPCMessage.XWalkViewHostMsg_UpdateHitTestData hit_test_data =>
      (true, OnUpdateHitTestData s hit_test_data, [])
    | IPCMessage.Unhandled _ _ => (false, s, [])
  (if handled then true else baseOnMessageReceived message, s', out)

/-- `SetOriginAccessWhitelist(base_url, match_patterns)`. -/
def SetOriginAccessWhitelist (s : XWalkRenderViewHostExt H) (base_url : String)
    (match_patterns : String) : XWalkRenderViewHostExt H × List Effect :=
  let s := { s with pending_base_url_ := base_url, pending_match_patterns_ := match_patterns }
  if s.is_render_view_created_ then
    (s, [Effect.Send (XWalkViewMsg.SetOriginAccessWhitelist
          s.pending_base_url_ s.pending_match_patterns_)])
  else (s, [])

/-- `SetBackgroundColor(c)`. -/
def SetBackgroundColor (s : XWalkRenderViewHostExt H) (wc : WebContents) (c : SkColor) :
    XWalkRenderViewHostExt H × List Effect :=
  (s, [Effect.Send (XWalkViewMsg.SetBackgroundColor wc.routingID c)])

/-- `SetTextZoomFactor(factor)`. -/
def SetTextZoomFactor (s : XWalkRenderViewHostExt H) (wc : WebContents) (factor : Float32) :
    XWalkRenderViewHostExt H × List Effect :=
  (s, [Effect.Send (XWalkViewMsg.SetTextZoomFactor wc.routingID factor)])

end XWalkRenderViewHostExt

/-! ## Sequences of calls on one object -/

/-- One call from the host framework or the embedder on the object, or
(`OtherInstanceRequest`) a `DocumentHasImages` call on another instance whose
web contents has a render view host. -/
inductive Call (H : Type) where
  | DocumentHasImages (wc : WebContents) (result : DocumentHasImagesResult)
  | OtherInstanceRequest
  | ClearCache
  | MarkHitTestDataRead
  | RequestNewHitTestDataAt (wc : WebContents) (touch_center : PointF) (touch_area : SizeF)
  | SetTextZoomLevel (wc : WebContents) (level : Double)
  | ResetScrollAndScaleState (wc : WebContents)
  | SetInitialPageScale (wc : WebContents) (page_scale_factor : Double)
  | RenderViewCreated
  | SetJsOnlineProperty (network_up : Bool)
  | RenderProcessGone
  | DidNavigateAnyFrame (redirects : List String)
  | OnPageScaleFactorChanged (client_bridge : Bool) (page_scale_factor : Float32)
  | OnMessageReceived (message : IPCMessage H)
  | SetOriginAccessWhitelist (base_url : String) (match_patterns : String)
  | SetBackgroundColor (wc : WebContents) (c : SkColor)
  | SetTextZoomFactor (wc : WebContents) (factor : Float32)
  deriving DecidableEq

/-- The static counter of `DocumentHasImages`, the object, and the effects so
far, oldest first. -/
structure Program (H : Type) where
  next_id : Int
  self : XWalkRenderViewHostExt H
  effects : List Effect

namespace Program

variable {H : Type}

/-- Program start followed by construction of the object: `next_id` has its
initialiser `1`, nothing has happened yet. -/
def start [Inhabited H] : Program H := ⟨1, XWalkRenderViewHostExt.create, []⟩

/-- Continue with the object in a new state, after the effects `out`. -/
def continueWith (p : Program H) (r : XWalkRenderViewHostExt H × List Effect) : Program H :=
  { p with self := r.1, effects := p.effects ++ r.2 }

/-- Perform one call. -/
def step (base : IPCMessage H → Bool) (p : Program H) : Call H → Program H
  | Call.DocumentHasImages wc result =>
    let r := p.self.DocumentHasImages p.next_id wc result
    { next_id := r.1, self := r.2.1, effects := p.effects ++ r.2.2 }
  | Call.OtherInstanceRequest => { p with next_id := wrapInt32 (p.next_id + 1) }
  | Call.ClearCache => p.continueWith p.self.ClearCache
  | Call.MarkHitTestDataRead => p.continueWith (p.self.MarkHitTestDataRead, [])
  | Call.RequestNewHitTestDataAt wc c a => p.continueWith (p.self.RequestNewHitTestDataAt wc c a)
  | Call.SetTextZoomLevel wc level => p.continueWith (p.self.SetTextZoomLevel wc level)
  | Call.ResetScrollAndScaleState wc => p.continueWith (p.self.ResetScrollAndScaleState wc)
  | Call.SetInitialPageScale wc f => p.continueWith (p.self.SetInitialPageScale wc f)
  | Call.RenderViewCreated => p.continueWith p.self.RenderViewCreated
  | Call.SetJsOnlineProperty b => p.continueWith (p.self.SetJsOnlineProperty b)
  | Call.RenderProcessGone => p.continueWith p.self.RenderProcessGone
  | Call.DidNavigateAnyFrame redirects => p.continueWith (p.self.DidNavigateAnyFrame redirects)
  | Call.OnPageScaleFactorChanged b f => p.continueWith (p.self.OnPageScaleFactorChanged b f)
  | Call.OnMessageReceived message => p.continueWith (p.self.OnMessageReceived base message).2
  | Call.SetOriginAccessWhitelist b m => p.continueWith (p.self.SetOriginAccessWhitelist b m)
  | Call.SetBackgroundColor wc c => p.continueWith (p.self.SetBackgroundColor wc c)
  | Call.SetTextZoomFactor wc f => p.continueWith (p.self.SetTextZoomFactor wc f)

/-- Perform a sequence of calls, first to last. -/
def run (base : IPCMessage H → Bool) (p : Program H) (calls : List (Call H)) : Program H :=
  calls.foldl (step base) p

end Program

/-- A call that takes a request id: `DocumentHasImages` while the web contents
has a render view host, on this or on another instance. -/
def Call.isRequest {H : Type} : Call H → Bool
  | Call.DocumentHasImages wc _ => wc.hasRenderViewHost
  | Call.OtherInstanceRequest => true
  | _ => false

/-- How many calls of the sequence took a request id. -/
def requestsMade {H : Type} (calls : List (Call H)) : Nat := calls.countP Call.isRequest

/-! ## Facts about `StdMap` -/

theorem findEntries_eq_none_iff {V : Type} (k : Int) (l : List (Int × V)) :
    findEntries k l = none ↔ k ∉ l.map Prod.fst := by
  induction l with
  | nil => simp [findEntries]
  | cons e rest ih =>
    unfold findEntries
    split_ifs with h
    · simp [h]
    · simp only [List.map_cons, List.mem_cons, not_or]
      exact ⟨fun h' => ⟨fun hk => h hk.symm, ih.1 h'⟩, fun h' => ih.2 h'.2⟩

theorem findEntries_eq_some_iff {V : Type} (k : Int) (v : V) (l : List (Int × V))
    (hl : l.Pairwise (fun a b => a.1 < b.1)) :
    findEntries k l = some v ↔ (k, v) ∈ l := by
  induction l with
  | nil => simp [findEntries]
  | cons e rest ih =>
    have hc := List.pairwise_cons.1 hl
    unfold findEntries
    split_ifs with h
    · constructor
      · intro hv
        have hv' : e.2 = v := Option.some.inj hv
        have he : e = (k, v) := Prod.ext h hv'
        exact he ▸ List.mem_cons_self _ _
      · intro hmem
        rcases List.mem_cons.1 hmem with h' | h'
        · rw [← h']
        · have hlt := hc.1 (k, v) h'
          have hlt' : e.1 < k := hlt
          omega
    · rw [ih hc.2]
      constructor
      · exact fun hmem => List.mem_cons_of_mem _ hmem
      · intro hmem
        rcases List.mem_cons.1 hmem with h' | h'
        · exact absurd (by rw [← h']) h
        · exact h'

theorem findEntries_assignEntries_self {V : Type} (k : Int) (v : V) (l : List (Int × V)) :
    findEntries k (assignEntries k v l) = some v := by
  induction l with
  | nil => simp [assignEntries, findEntries]
  | cons e rest ih =>
    unfold assignEntries
    split_ifs with h1 h2
    · simp [findEntries]
    · simp [findEntries]
    · have : e.1 ≠ k := fun h => h2 h.symm
      simp [findEntries, this, ih]

theorem findEntries_assignEntries_other {V : Type} (k j : Int) (v : V) (l : List (Int × V))
    (hj : j ≠ k) : findEntries j (assignEntries k v l) = findEntries j l := by
  induction l with
  | nil => simp [assignEntries, findEntries, hj.symm]
  | cons e rest ih =>
    unfold assignEntries
    split_ifs with h1 h2
    · simp [findEntries, hj.symm]
    · have : e.1 ≠ j := fun h => hj (h ▸ h2).symm
      simp [findEntries, hj.symm, this]
    · simp [findEntries, ih]

theorem filter_ne_cons_of_eq {V : Type} (k : Int) (e : Int × V) (rest : List (Int × V))
    (h : e.1 = k) :
    (e :: rest).filter (fun x => decide (x.1 ≠ k)) = rest.filter (fun x => decide (x.1 ≠ k)) := by
  apply List.filter_cons_of_neg
  simp only [decide_eq_true_eq]
  exact fun hne => hne h

theorem filter_ne_cons_of_ne {V : Type} (k : Int) (e : Int × V) (rest : List (Int × V))
    (h : e.1 ≠ k) :
    (e :: rest).filter (fun x => decide (x.1 ≠ k))
      = e :: rest.filter (fun x => decide (x.1 ≠ k)) := by
  apply List.filter_cons_of_pos
  simp only [decide_eq_true_eq]
  exact h

theorem eraseEntries_eq_filter {V : Type} (k : Int) (l : List (Int × V))
    (hl : l.Pairwise (fun a b => a.1 < b.1)) :
    eraseEntries k l = l.filter (fun e => decide (e.1 ≠ k)) := by
  induction l with
  | nil => rfl
  | cons e rest ih =>
    have hc := List.pairwise_cons.1 hl
    unfold eraseEntries
    split_ifs with h
    · have hall : ∀ x ∈ rest, decide (x.1 ≠ k) = true := by
        intro x hx
        have := hc.1 x hx
        simp only [decide_eq_true_eq]
        omega
      rw [filter_ne_cons_of_eq k e rest h, List.filter_eq_self.2 hall]
    · rw [filter_ne_cons_of_ne k e rest h, ih hc.2]

theorem findEntries_filter_other {V : Type} (k j : Int) (l : List (Int × V)) (hj : j ≠ k) :
    findEntries j (l.filter (fun e => decide (e.1 ≠ k))) = findEntries j l := by
  induction l with
  | nil => rfl
  | cons e rest ih =>
    by_cases h : e.1 = k
    · have hej : ¬ e.1 = j := fun h' => hj (h' ▸ h)
      rw [filter_ne_cons_of_eq k e rest h, ih]
      conv_rhs => unfold findEntries
      rw [if_neg hej]
    · rw [filter_ne_cons_of_ne k e rest h]
      unfold findEntries
      rw [ih]

theorem findEntries_filter_self {V : Type} (k : Int) (l : List (Int × V)) :
    findEntries k (l.filter (fun e => decide (e.1 ≠ k))) = none := by
  rw [findEntries_eq_none_iff]
  simp [List.mem_filter]

theorem foldl_run_eq_map (l : List (Int × DocumentHasImagesResult)) (acc : List Effect) :
    l.foldl (fun out pending_req => out ++ [Effect.Run pending_req.2 false]) acc
      = acc ++ l.map (fun e => Effect.Run e.2 false) := by
  induction l generalizing acc with
  | nil => simp
  | cons e rest ih => simp [ih]

namespace Program

variable {H : Type}

theorem run_nil (base : IPCMessage H → Bool) (p : Program H) : run base p [] = p := rfl

theorem run_cons (base : IPCMessage H → Bool) (p : Program H) (c : Call H)
    (calls : List (Call H)) : run base p (c :: calls) = run base (step base p c) calls := rfl

theorem run_append (base : IPCMessage H → Bool) (p : Program H) (xs ys : List (Call H)) :
    run base p (xs ++ ys) = run base (run base p xs) ys := by
  simp [run, List.foldl_append]

theorem run_snoc (base : IPCMessage H → Bool) (p : Program H) (xs : List (Call H))
    (c : Call H) : run base p (xs ++ [c]) = step base (run base p xs) c := by
  simp [run, List.foldl_append]

end Program

/-! ## What one call does to each field -/

theorem OnDocumentHasImagesResponse_frame {H : Type} (s : XWalkRenderViewHostExt H)
    (msg_id : Int) (has_images : Bool) :
    (s.OnDocumentHasImagesResponse msg_id has_images).1.last_hit_test_data_
      = s.last_hit_test_data_ ∧
    (s.OnDocumentHasImagesResponse msg_id has_images).1.has_new_hit_test_data_
      = s.has_new_hit_test_data_ ∧
    (s.OnDocumentHasImagesResponse msg_id has_images).1.is_render_view_created_
      = s.is_render_view_created_ ∧
    (s.OnDocumentHasImagesResponse msg_id has_images).1.pending_base_url_
      = s.pending_base_url_ ∧
    (s.OnDocumentHasImagesResponse msg_id has_images).1.pending_match_patterns_
      = s.pending_match_patterns_ := by
  unfold XWalkRenderViewHostExt.OnDocumentHasImagesResponse
  cases s.pending_document_has_images_requests_.find msg_id <;> simp

namespace Program

variable {H : Type}

theorem step_is_render_view_created (base : IPCMessage H → Bool) (p : Program H)
    (c : Call H) :
    (step base p c).self.is_render_view_created_ = true ↔
      p.self.is_render_view_created_ = true ∨ c = Call.RenderViewCreated := by
  cases c with
  | OnMessageReceived message =>
    cases message with
    | XWalkViewHostMsg_DocumentHasImagesResponse msg_id has_images =>
      simp [step, continueWith, XWalkRenderViewHostExt.OnMessageReceived,
        (OnDocumentHasImagesResponse_frame p.self msg_id has_images).2.2.1]
    | XWalkViewHostMsg_UpdateHitTestData d =>
      simp [step, continueWith, XWalkRenderViewHostExt.OnMessageReceived,
        XWalkRenderViewHostExt.OnUpdateHitTestData]
    | Unhandled t pl =>
      simp [step, continueWith, XWalkRenderViewHostExt.OnMessageReceived]
  | DocumentHasImages wc result =>
    cases hwc : wc.hasRenderViewHost <;>
      simp [step, XWalkRenderViewHostExt.DocumentHasImages, hwc]
  | SetOriginAccessWhitelist b m =>
    cases hc : p.self.is_render_view_created_ <;>
      simp [step, continueWith, XWalkRenderViewHostExt.SetOriginAccessWhitelist, hc]
  | OnPageScaleFactorChanged b f =>
    cases b <;> simp [step, continueWith, XWalkRenderViewHostExt.OnPageScaleFactorChanged]
  | _ =>
    simp [step, continueWith, XWalkRenderViewHostExt.ClearCache,
      XWalkRenderViewHostExt.MarkHitTestDataRead,
      XWalkRenderViewHostExt.RequestNewHitTestDataAt,
      XWalkRenderViewHostExt.SetTextZoomLevel,
      XWalkRenderViewHostExt.ResetScrollAndScaleState,
      XWalkRenderViewHostExt.SetInitialPageScale,
      XWalkRenderViewHostExt.RenderViewCreated,
      XWalkRenderViewHostExt.SetJsOnlineProperty,
      XWalkRenderViewHostExt.RenderProcessGone,
      XWalkRenderViewHostExt.DidNavigateAnyFrame,
      XWalkRenderViewHostExt.SetBackgroundColor,
      XWalkRenderViewHostExt.SetTextZoomFactor]

theorem step_whitelist (base : IPCMessage H → Bool) (p : Program H) (c : Call H)
    (hc : ∀ b m, c ≠ Call.SetOriginAccessWhitelist b m) :
    (step base p c).self.pending_base_url_ = p.self.pending_base_url_ ∧
    (step base p c).self.pending_match_patterns_ = p.self.pending_match_patterns_ := by
  cases c with
  | OnMessageReceived message =>
    cases message with
    | XWalkViewHostMsg_DocumentHasImagesResponse msg_id has_images =>
      simp [step, continueWith, XWalkRenderViewHostExt.OnMessageReceived,
        (OnDocumentHasImagesResponse_frame p.self msg_id has_images).2.2.2]
    | XWalkViewHostMsg_UpdateHitTestData d =>
      simp [step, continueWith, XWalkRenderViewHostExt.OnMessageReceived,
        XWalkRenderViewHostExt.OnUpdateHitTestData]
    | Unhandled t pl =>
      simp [step, continueWith, XWalkRenderViewHostExt.OnMessageReceived]
  | DocumentHasImages wc result =>
    cases hwc : wc.hasRenderViewHost <;>
      simp [step, XWalkRenderViewHostExt.DocumentHasImages, hwc]
  | SetOriginAccessWhitelist b m => exact absurd rfl (hc b m)
  | OnPageScaleFactorChanged b f =>
    cases b <;> simp [step, continueWith, XWalkRenderViewHostExt.OnPageScaleFactorChanged]
  | _ =>
    simp [step, continueWith, XWalkRenderViewHostExt.ClearCache,
      XWalkRenderViewHostExt.MarkHitTestDataRead,
      XWalkRenderViewHostExt.RequestNewHitTestDataAt,
      XWalkRenderViewHostExt.SetTextZoomLevel,
      XWalkRenderViewHostExt.ResetScrollAndScaleState,
      XWalkRenderViewHostExt.SetInitialPageScale,
      XWalkRenderViewHostExt.RenderViewCreated,
      XWalkRenderViewHostExt.SetJsOnlineProperty,
      XWalkRenderViewHostExt.RenderProcessGone,
      XWalkRenderViewHostExt.DidNavigateAnyFrame,
      XWalkRenderViewHostExt.SetBackgroundColor,
      XWalkRenderViewHostExt.SetTextZoomFactor]

theorem step_hit_test (base : IPCMessage H → Bool) (p : Program H) (c : Call H)
    (hc : ∀ d, c ≠ Call.OnMessageReceived (IPCMessage.XWalkViewHostMsg_UpdateHitTestData d)) :
    (step base p c).self.last_hit_test_data_ = p.self.last_hit_test_data_ ∧
    ((step base p c).self.has_new_hit_test_data_ = true ↔
      p.self.has_new_hit_test_data_ = true ∧ c ≠ Call.MarkHitTestDataRead) := by
  cases c with
  | OnMessageReceived message =>
    cases message with
    | XWalkViewHostMsg_DocumentHasImagesResponse msg_id has_images =>
      simp [step, continueWith, XWalkRenderViewHostExt.OnMessageReceived,
        (OnDocumentHasImagesResponse_frame p.self msg_id has_images).1,
        (OnDocumentHasImagesResponse_frame p.self msg_id has_images).2.1]
    | XWalkViewHostMsg_UpdateHitTestData d => exact absurd rfl (hc d)
    | Unhandled t pl =>
      simp [step, continueWith, XWalkRenderViewHostExt.OnMessageReceived]
  | DocumentHasImages wc result =>
    cases hwc : wc.hasRenderViewHost <;>
      simp [step, XWalkRenderViewHostExt.DocumentHasImages, hwc]
  | SetOriginAccessWhitelist b m =>
    cases hcr : p.self.is_render_view_created_ <;>
      simp [step, continueWith, XWalkRenderViewHostExt.SetOriginAccessWhitelist, hcr]
  | OnPageScaleFactorChanged b f =>
    cases b <;> simp [step, continueWith, XWalkRenderViewHostExt.OnPageScaleFactorChanged]
  | _ =>
    simp [step, continueWith, XWalkRenderViewHostExt.ClearCache,
      XWalkRenderViewHostExt.MarkHitTestDataRead,
      XWalkRenderViewHostExt.RequestNewHitTestDataAt,
      XWalkRenderViewHostExt.SetTextZoomLevel,
      XWalkRenderViewHostExt.ResetScrollAndScaleState,
      XWalkRenderViewHostExt.SetInitialPageScale,
      XWalkRenderViewHostExt.RenderViewCreated,
      XWalkRenderViewHostExt.SetJsOnlineProperty,
      XWalkRenderViewHostExt.RenderProcessGone,
      XWalkRenderViewHostExt.DidNavigateAnyFrame,
      XWalkRenderViewHostExt.SetBackgroundColor,
      XWalkRenderViewHostExt.SetTextZoomFactor]

end Program

/-! ## Single operations -/

open XWalkRenderViewHostExt

/-- C5: `OnDocumentHasImagesResponse(msg_id, has_images)`. When the
pending-request map holds the entry `(msg_id, cb)`, the only effect is one run
of `cb` with `has_images`; afterwards `msg_id` is no longer a key, the entries
are the old ones without that of `msg_id` (so every other entry is as before,
and is still found under its key), and no other field changes. When `msg_id`
is not among the keys of the map, nothing is run and the object is unchanged. -/
theorem OnDocumentHasImagesResponse_spec {H : Type} (s : XWalkRenderViewHostExt H)
    (msg_id : Int) (has_images : Bool) :
    (∀ cb, (msg_id, cb) ∈ s.pending_document_has_images_requests_.entries →
      (s.OnDocumentHasImagesResponse msg_id has_images).2 = [Effect.Run cb has_images] ∧
      (s.OnDocumentHasImagesResponse msg_id has_images).1.pending_document_has_images_requests_.find
          msg_id = none ∧
      msg_id ∉ (s.OnDocumentHasImagesResponse msg_id
          has_images).1.pending_document_has_images_requests_.keys ∧
      (s.OnDocumentHasImagesResponse msg_id has_images).1.pending_document_has_images_requests_.entries
        = s.pending_document_has_images_requests_.entries.filter (fun e => decide (e.1 ≠ msg_id)) ∧
      (∀ e, e.1 ≠ msg_id →
        (e ∈ (s.OnDocumentHasImagesResponse msg_id
            has_images).1.pending_document_has_images_requests_.entries ↔
          e ∈ s.pending_document_has_images_requests_.entries)) ∧
      (∀ k, k ≠ msg_id →
        (s.OnDocumentHasImagesResponse msg_id has_images).1.pending_document_has_images_requests_.find k
          = s.pending_document_has_images_requests_.find k) ∧
      (s.OnDocumentHasImagesResponse msg_id has_images).1 =
        { s with pending_document_has_images_requests_ :=
                   (s.OnDocumentHasImagesResponse msg_id
                     has_images).1.pending_document_has_images_requests_ }) ∧
    (msg_id ∉ s.pending_document_has_images_requests_.keys →
      s.OnDocumentHasImagesResponse msg_id has_images = (s, [])) := by
  constructor
  · intro cb hmem
    have hcb : s.pending_document_has_images_requests_.find msg_id = some cb :=
      (findEntries_eq_some_iff msg_id cb _ s.pending_document_has_images_requests_.ordered).2 hmem
    have hent : (s.OnDocumentHasImagesResponse msg_id
        has_images).1.pending_document_has_images_requests_.entries
        = s.pending_document_has_images_requests_.entries.filter
            (fun e => decide (e.1 ≠ msg_id)) := by
      simp only [OnDocumentHasImagesResponse, hcb, StdMap.erase]
      exact eraseEntries_eq_filter _ _ s.pending_document_has_images_requests_.ordered
    have hnone : (s.OnDocumentHasImagesResponse msg_id
        has_images).1.pending_document_has_images_requests_.find msg_id = none := by
      simp only [StdMap.find, hent]
      exact findEntries_filter_self _ _
    refine ⟨?_, hnone, ?_, hent, ?_, ?_, ?_⟩
    · simp only [OnDocumentHasImagesResponse, hcb]
    · exact (findEntries_eq_none_iff _ _).1 hnone
    · intro e he
      rw [hent, List.mem_filter]
      constructor
      · exact fun h => h.1
      · exact fun h => ⟨h, by simpa using he⟩
    · intro k hk
      simp only [StdMap.find, hent]
      exact findEntries_filter_other _ _ _ hk
    · simp only [OnDocumentHasImagesResponse, hcb]
  · intro hkey
    have hnone : s.pending_document_has_images_requests_.find msg_id = none :=
      (findEntries_eq_none_iff _ _).2 hkey
    simp only [OnDocumentHasImagesResponse, hnone]

theorem OnDocumentHasImagesResponse_spec_witness :
    ((2 : Int), DocumentHasImagesResult.mk 1) ∈
      (Program.run (fun _ => false) (Program.start : Program Nat)
        [Call.DocumentHasImages (WebContents.mk true 5) (DocumentHasImagesResult.mk 0),
         Call.DocumentHasImages (WebContents.mk true 5)
           (DocumentHasImagesResult.mk 1)]).self.pending_document_has_images_requests_.entries ∧
    ((Program.run (fun _ => false) (Program.start : Program Nat)
        [Call.DocumentHasImages (WebContents.mk true 5) (DocumentHasImagesResult.mk 0),
         Call.DocumentHasImages (WebContents.mk true 5)
           (DocumentHasImagesResult.mk 1)]).self.OnDocumentHasImagesResponse 2 true).2
      = [Effect.Run (DocumentHasImagesResult.mk 1) true] ∧
    ((Program.run (fun _ => false) (Program.start : Program Nat)
        [Call.DocumentHasImages (WebContents.mk true 5) (DocumentHasImagesResult.mk 0),
         Call.DocumentHasImages (WebContents.mk true 5)
           (DocumentHasImagesResult.mk 1)]).self.OnDocumentHasImagesResponse
        2 true).1.pending_document_has_images_requests_.entries
      = [((1 : Int), DocumentHasImagesResult.mk 0)] ∧
    (7 : Int) ∉
      (Program.run (fun _ => false) (Program.start : Program Nat)
        [Call.DocumentHasImages (WebContents.mk true 5) (DocumentHasImagesResult.mk 0),
         Call.DocumentHasImages (WebContents.mk true 5)
           (DocumentHasImagesResult.mk 1)]).self.pending_document_has_images_requests_.keys ∧
    ((Program.run (fun _ => false) (Program.start : Program Nat)
        [Call.DocumentHasImages (WebContents.mk true 5) (DocumentHasImagesResult.mk 0),
         Call.DocumentHasImages (WebContents.mk true 5)
           (DocumentHasImagesResult.mk 1)]).self.OnDocumentHasImagesResponse 7 true).2 = [] :=
  ⟨by decide,
    ((OnDocumentHasImagesResponse_spec _ 2 true).1 (DocumentHasImagesResult.mk 1)
      (by decide)).1,
    by decide, by decide,
    congrArg Prod.snd ((OnDocumentHasImagesResponse_spec _ 7 true).2 (by decide))⟩

/-- C6: each forwarding command sends exactly one message of its own type with
its arguments as given (and the routing id, except for `ClearCache` and
`SetJsOnlineProperty`), and returns the object unchanged. -/
theorem forwarding_commands_spec {H : Type} (s : XWalkRenderViewHostExt H) (wc : WebContents) :
    s.ClearCache = (s, [Effect.Send XWalkViewMsg.ClearCache]) ∧
    (∀ level, s.SetTextZoomLevel wc level
      = (s, [Effect.Send (XWalkViewMsg.SetTextZoomLevel wc.routingID level)])) ∧
    (∀ factor, s.SetTextZoomFactor wc factor
      = (s, [Effect.Send (XWalkViewMsg.SetTextZoomFactor wc.routingID factor)])) ∧
    (∀ f, s.SetInitialPageScale wc f
      = (s, [Effect.Send (XWalkViewMsg.SetInitialPageScale wc.routingID f)])) ∧
    s.ResetScrollAndScaleState wc
      = (s, [Effect.Send (XWalkViewMsg.ResetScrollAndScaleState wc.routingID)]) ∧
    (∀ c, s.SetBackgroundColor wc c
      = (s, [Effect.Send (XWalkViewMsg.SetBackgroundColor wc.routingID c)])) ∧
    (∀ network_up, s.SetJsOnlineProperty network_up
      = (s, [Effect.Send (XWalkViewMsg.SetJsOnlineProperty network_up)])) ∧
    (∀ touch_center touch_area, s.RequestNewHitTestDataAt wc touch_center touch_area
      = (s, [Effect.Send (XWalkViewMsg.DoHitTest wc.routingID touch_center touch_area)])) :=
  ⟨rfl, fun _ => rfl, fun _ => rfl, fun _ => rfl, rfl, fun _ => rfl, fun _ => rfl,
    fun _ _ => rfl⟩

/-- C8: `OnMessageReceived` returns `true` and does what
`OnDocumentHasImagesResponse` does on a DocumentHasImagesResponse message,
returns `true` and does what `OnUpdateHitTestData` does on an UpdateHitTestData
message, and on any other message leaves the object unchanged, has no effect,
and returns what the base class returns on that message. -/
theorem OnMessageReceived_spec {H : Type} (base : IPCMessage H → Bool)
    (s : XWalkRenderViewHostExt H) :
    (∀ msg_id has_images,
      s.OnMessageReceived base
          (IPCMessage.XWalkViewHostMsg_DocumentHasImagesResponse msg_id has_images)
        = (true, s.OnDocumentHasImagesResponse msg_id has_images)) ∧
    (∀ hit_test_data,
      s.OnMessageReceived base (IPCMessage.XWalkViewHostMsg_UpdateHitTestData hit_test_data)
        = (true, s.OnUpdateHitTestData hit_test_data, [])) ∧
    (∀ type payload,
      s.OnMessageReceived base (IPCMessage.Unhandled type payload)
        = (base (IPCMessage.Unhandled type payload), s, [])) :=
  ⟨fun _ _ => rfl, fun _ => rfl, fun _ _ => by simp [OnMessageReceived]⟩

/-- C9: without a render view host, `DocumentHasImages(result)` runs `result`
once with `false` and does nothing else: no message, the counter and the
object (so the pending-request map) are as before. -/
theorem DocumentHasImages_without_render_view_host {H : Type} (next_id : Int)
    (s : XWalkRenderViewHostExt H) (wc : WebContents) (result : DocumentHasImagesResult)
    (h : wc.hasRenderViewHost = false) :
    s.DocumentHasImages next_id wc result = (next_id, s, [Effect.Run result false]) := by
  simp [DocumentHasImages, h]

theorem DocumentHasImages_without_render_view_host_witness :
    (WebContents.mk false 7).hasRenderViewHost = false ∧
    (XWalkRenderViewHostExt.create : XWalkRenderViewHostExt Nat).DocumentHasImages 1
        (WebContents.mk false 7) (DocumentHasImagesResult.mk 3)
      = (1, XWalkRenderViewHostExt.create, [Effect.Run (DocumentHasImagesResult.mk 3) false]) :=
  ⟨rfl, DocumentHasImages_without_render_view_host 1 _ _ _ rfl⟩

/-- C10: `RenderProcessGone` runs the callback of every pending entry once with
`false`, entry by entry in the map's order, which is ascending in the request
id; it sends nothing and returns the object unchanged, pending entries
included. -/
theorem RenderProcessGone_spec {H : Type} (s : XWalkRenderViewHostExt H) :
    s.RenderProcessGone.1 = s ∧
    s.RenderProcessGone.2
      = s.pending_document_has_images_requests_.entries.map (fun e => Effect.Run e.2 false) ∧
    s.pending_document_has_images_requests_.keys.Pairwise (fun a b => a < b) ∧
    (∀ msg, Effect.Send msg ∉ s.RenderProcessGone.2) := by
  have h2 : s.RenderProcessGone.2
      = s.pending_document_has_images_requests_.entries.map (fun e => Effect.Run e.2 false) := by
    simp [RenderProcessGone, foldl_run_eq_map]
  refine ⟨rfl, h2, ?_, ?_⟩
  · simpa [StdMap.keys, List.pairwise_map] using s.pending_document_has_images_requests_.ordered
  · intro msg hmem
    rw [h2] at hmem
    simp at hmem

/-! ## Sequences of calls: whitelist -/

namespace Program

variable {H : Type}

theorem run_is_render_view_created [Inhabited H] (base : IPCMessage H → Bool)
    (calls : List (Call H)) :
    (run base start calls).self.is_render_view_created_ = true ↔
      Call.RenderViewCreated ∈ calls := by
  induction calls using List.reverseRecOn with
  | nil => simp [run_nil, start, XWalkRenderViewHostExt.create]
  | append_singleton xs x ih =>
    rw [run_snoc, step_is_render_view_created, ih]
    simp only [List.mem_append, List.mem_singleton]
    exact ⟨fun h => h.imp id Eq.symm, fun h => h.imp id Eq.symm⟩

theorem run_whitelist (base : IPCMessage H → Bool) (p : Program H) (calls : List (Call H))
    (hcalls : ∀ b m, Call.SetOriginAccessWhitelist b m ∉ calls) :
    (run base p calls).self.pending_base_url_ = p.self.pending_base_url_ ∧
    (run base p calls).self.pending_match_patterns_ = p.self.pending_match_patterns_ := by
  induction calls generalizing p with
  | nil => exact ⟨rfl, rfl⟩
  | cons c rest ih =>
    have hc : ∀ b m, c ≠ Call.SetOriginAccessWhitelist b m :=
      fun b m h => hcalls b m (h ▸ List.mem_cons_self _ _)
    have hrest : ∀ b m, Call.SetOriginAccessWhitelist b m ∉ rest :=
      fun b m h => hcalls b m (List.mem_cons_of_mem _ h)
    have h1 := step_whitelist base p c hc
    have h2 := ih (step base p c) hrest
    rw [run_cons]
    exact ⟨h2.1.trans h1.1, h2.2.trans h1.2⟩

end Program

/-- C3: after any sequence of calls on a freshly constructed object,
`SetOriginAccessWhitelist(b, m)` stores `b` and `m` as the pending whitelist;
it sends one SetOriginAccessWhitelist message carrying `(b, m)` exactly when
`RenderViewCreated` is among the earlier calls, and sends nothing otherwise,
in particular on the fresh object. -/
theorem SetOriginAccessWhitelist_spec {H : Type} [Inhabited H] (base : IPCMessage H → Bool)
    (calls : List (Call H)) (b m : String) :
    ((Program.run base Program.start calls).self.SetOriginAccessWhitelist b m).1.pending_base_url_
      = b ∧
    ((Program.run base Program.start calls).self.SetOriginAccessWhitelist
      b m).1.pending_match_patterns_ = m ∧
    (((Program.run base Program.start calls).self.SetOriginAccessWhitelist b m).2
        = [Effect.Send (XWalkViewMsg.SetOriginAccessWhitelist b m)] ↔
      Call.RenderViewCreated ∈ calls) ∧
    (((Program.run base Program.start calls).self.SetOriginAccessWhitelist b m).2 = [] ↔
      Call.RenderViewCreated ∉ calls) ∧
    ((XWalkRenderViewHostExt.create : XWalkRenderViewHostExt H).SetOriginAccessWhitelist
      b m).2 = [] := by
  have hinv := Program.run_is_render_view_created base calls
  refine ⟨?_, ?_, ?_, ?_, ?_⟩
  · cases hc : (Program.run base Program.start calls).self.is_render_view_created_ <;>
      simp [SetOriginAccessWhitelist, hc]
  · cases hc : (Program.run base Program.start calls).self.is_render_view_created_ <;>
      simp [SetOriginAccessWhitelist, hc]
  · rw [← hinv]
    cases hc : (Program.run base Program.start calls).self.is_render_view_created_ <;>
      simp [SetOriginAccessWhitelist, hc]
  · rw [← hinv]
    cases hc : (Program.run base Program.start calls).self.is_render_view_created_ <;>
      simp [SetOriginAccessWhitelist, hc]
  · simp [SetOriginAccessWhitelist, XWalkRenderViewHostExt.create]

/-- C2, as the code has it: for a non-empty base URL `b`, once
`SetOriginAccessWhitelist(b, m)` has been called, a `RenderViewCreated` after
any further calls, none of them `SetOriginAccessWhitelist`, sends exactly one
SetOriginAccessWhitelist message, carrying `(b, m)`. -/
theorem RenderViewCreated_replays_whitelist {H : Type} (base : IPCMessage H → Bool)
    (p : Program H) (b m : String) (calls : List (Call H))
    (hb : b ≠ "")
    (hcalls : ∀ b' m', Call.SetOriginAccessWhitelist b' m' ∉ calls) :
    (Program.run base (Program.step base p (Call.SetOriginAccessWhitelist b m))
        calls).self.RenderViewCreated.2
      = [Effect.Send (XWalkViewMsg.SetOriginAccessWhitelist b m)] := by
  have hrun := Program.run_whitelist base
    (Program.step base p (Call.SetOriginAccessWhitelist b m)) calls hcalls
  have hset : (Program.step base p (Call.SetOriginAccessWhitelist b m)).self.pending_base_url_ = b ∧
      (Program.step base p (Call.SetOriginAccessWhitelist b m)).self.pending_match_patterns_
        = m := by
    cases hc : p.self.is_render_view_created_ <;>
      simp [Program.step, Program.continueWith, SetOriginAccessWhitelist, hc]
  have hne : b.isEmpty = false := by
    cases h : b.isEmpty
    · rfl
    · exact absurd ((String.isEmpty_iff b).1 h) hb
  simp [RenderViewCreated, hrun.1, hrun.2, hset.1, hset.2, hne]

theorem RenderViewCreated_replays_whitelist_witness :
    ("http://a/" : String) ≠ "" ∧
    (∀ b' m', Call.SetOriginAccessWhitelist b' m'
      ∉ ([Call.RenderViewCreated, Call.RenderProcessGone] : List (Call Nat))) ∧
    (Program.run (fun _ => false)
        (Program.step (fun _ => false) (Program.start : Program Nat)
          (Call.SetOriginAccessWhitelist "http://a/" "*"))
        [Call.RenderViewCreated, Call.RenderProcessGone]).self.RenderViewCreated.2
      = [Effect.Send (XWalkViewMsg.SetOriginAccessWhitelist "http://a/" "*")] :=
  ⟨by decide, by simp,
    RenderViewCreated_replays_whitelist (fun _ => false) Program.start "http://a/" "*"
      [Call.RenderViewCreated, Call.RenderProcessGone] (by decide) (by simp)⟩

/-- C2 as stated fails for the empty base URL: after
`SetOriginAccessWhitelist("", "*")` on a fresh object, `RenderViewCreated`
sends nothing. -/
theorem RenderViewCreated_empty_base_url_sends_nothing :
    (Program.run (fun _ => false) (Program.start : Program Nat)
        [Call.SetOriginAccessWhitelist "" "*"]).self.RenderViewCreated.2 = [] ∧
    (Program.run (fun _ => false) (Program.start : Program Nat)
        [Call.SetOriginAccessWhitelist "" "*"]).self.RenderViewCreated.2
      ≠ [Effect.Send (XWalkViewMsg.SetOriginAccessWhitelist "" "*")] := by
  constructor
  · rfl
  · decide

/-! ## Sequences of calls: hit-test data -/

namespace Program

variable {H : Type}

theorem run_hit_test (base : IPCMessage H → Bool) (p : Program H) (calls : List (Call H))
    (hcalls : ∀ d,
      Call.OnMessageReceived (IPCMessage.XWalkViewHostMsg_UpdateHitTestData d) ∉ calls) :
    (run base p calls).self.last_hit_test_data_ = p.self.last_hit_test_data_ ∧
    ((run base p calls).self.has_new_hit_test_data_ = true ↔
      p.self.has_new_hit_test_data_ = true ∧ Call.MarkHitTestDataRead ∉ calls) := by
  induction calls generalizing p with
  | nil => simp [run_nil]
  | cons c rest ih =>
    have hc : ∀ d,
        c ≠ Call.OnMessageReceived (IPCMessage.XWalkViewHostMsg_UpdateHitTestData d) :=
      fun d h => hcalls d (h ▸ List.mem_cons_self _ _)
    have hrest : ∀ d,
        Call.OnMessageReceived (IPCMessage.XWalkViewHostMsg_UpdateHitTestData d) ∉ rest :=
      fun d h => hcalls d (List.mem_cons_of_mem _ h)
    have h1 := step_hit_test base p c hc
    have h2 := ih (step base p c) hrest
    rw [run_cons]
    refine ⟨h2.1.trans h1.1, ?_⟩
    rw [h2.2, h1.2, List.mem_cons, not_or]
    constructor
    · rintro ⟨⟨hp, hne⟩, hr⟩
      exact ⟨hp, fun h => hne h.symm, hr⟩
    · rintro ⟨hp, hne, hr⟩
      exact ⟨⟨hp, fun h => hne h.symm⟩, hr⟩

theorem step_update_hit_test (base : IPCMessage H → Bool) (p : Program H) (d : H) :
    (step base p (Call.OnMessageReceived
      (IPCMessage.XWalkViewHostMsg_UpdateHitTestData d))).self.last_hit_test_data_ = d ∧
    (step base p (Call.OnMessageReceived
      (IPCMessage.XWalkViewHostMsg_UpdateHitTestData d))).self.has_new_hit_test_data_ = true := by
  simp [step, continueWith, XWalkRenderViewHostExt.OnMessageReceived,
    XWalkRenderViewHostExt.OnUpdateHitTestData]

/-- Either no call is an `UpdateHitTestData` delivery, or there is a last one. -/
theorem last_update_split (calls : List (Call H)) :
    (∀ d, Call.OnMessageReceived (IPCMessage.XWalkViewHostMsg_UpdateHitTestData d) ∉ calls) ∨
    ∃ pre d post,
      calls = pre ++ Call.OnMessageReceived (IPCMessage.XWalkViewHostMsg_UpdateHitTestData d)
        :: post ∧
      ∀ d', Call.OnMessageReceived (IPCMessage.XWalkViewHostMsg_UpdateHitTestData d') ∉ post := by
  induction calls with
  | nil => exact Or.inl (fun d h => by simp at h)
  | cons c rest ih =>
    rcases ih with hnone | ⟨pre, d, post, heq, hpost⟩
    · by_cases hc : ∃ d,
          c = Call.OnMessageReceived (IPCMessage.XWalkViewHostMsg_UpdateHitTestData d)
      · obtain ⟨d, rfl⟩ := hc
        exact Or.inr ⟨[], d, rest, rfl, hnone⟩
      · refine Or.inl (fun d h => ?_)
        rcases List.mem_cons.1 h with h | h
        · exact hc ⟨d, h.symm⟩
        · exact hnone d h
    · exact Or.inr ⟨c :: pre, d, post, by rw [heq]; rfl, hpost⟩

end Program

/-- C4: after any sequence of calls on a freshly constructed object,
`HasNewHitTestData()` is true exactly when the sequence has a last
`OnUpdateHitTestData` and no `MarkHitTestDataRead` comes after it;
`GetLastHitTestData()` is the argument of that last `OnUpdateHitTestData` (and
the default-constructed value when there was none); `MarkHitTestDataRead`
clears the flag and changes no other field, the cached data included. -/
theorem hit_test_data_spec {H : Type} [Inhabited H] (base : IPCMessage H → Bool)
    (calls : List (Call H)) :
    ((Program.run base Program.start calls).self.HasNewHitTestData = true ↔
      ∃ pre d post,
        calls = pre ++ Call.OnMessageReceived (IPCMessage.XWalkViewHostMsg_UpdateHitTestData d)
          :: post ∧
        (∀ d', Call.OnMessageReceived (IPCMessage.XWalkViewHostMsg_UpdateHitTestData d')
          ∉ post) ∧
        Call.MarkHitTestDataRead ∉ post) ∧
    (∀ pre d post,
      calls = pre ++ Call.OnMessageReceived (IPCMessage.XWalkViewHostMsg_UpdateHitTestData d)
        :: post →
      (∀ d', Call.OnMessageReceived (IPCMessage.XWalkViewHostMsg_UpdateHitTestData d')
        ∉ post) →
      (Program.run base Program.start calls).self.GetLastHitTestData = d) ∧
    ((∀ d, Call.OnMessageReceived (IPCMessage.XWalkViewHostMsg_UpdateHitTestData d) ∉ calls) →
      (Program.run base Program.start calls).self.GetLastHitTestData = default) ∧
    (∀ s : XWalkRenderViewHostExt H,
      s.MarkHitTestDataRead.HasNewHitTestData = false ∧
      s.MarkHitTestDataRead.GetLastHitTestData = s.GetLastHitTestData ∧
      s.MarkHitTestDataRead = { s with has_new_hit_test_data_ := false }) := by
  have key : ∀ pre d post,
      calls = pre ++ Call.OnMessageReceived (IPCMessage.XWalkViewHostMsg_UpdateHitTestData d)
        :: post →
      (∀ d', Call.OnMessageReceived (IPCMessage.XWalkViewHostMsg_UpdateHitTestData d')
        ∉ post) →
      (Program.run base Program.start calls).self.last_hit_test_data_ = d ∧
      ((Program.run base Program.start calls).self.has_new_hit_test_data_ = true ↔
        Call.MarkHitTestDataRead ∉ post) := by
    intro pre d post heq hpost
    have hup := Program.step_update_hit_test base (Program.run base Program.start pre) d
    have hrun := Program.run_hit_test base
      (Program.step base (Program.run base Program.start pre)
        (Call.OnMessageReceived (IPCMessage.XWalkViewHostMsg_UpdateHitTestData d))) post hpost
    rw [heq, Program.run_append, Program.run_cons]
    refine ⟨hrun.1.trans hup.1, ?_⟩
    rw [hrun.2, hup.2]
    simp
  refine ⟨?_, ?_, ?_, ?_⟩
  · constructor
    · intro hflag
      rcases Program.last_update_split calls with hnone | ⟨pre, d, post, heq, hpost⟩
      · have h := (Program.run_hit_test base Program.start calls hnone).2.1 hflag
        simp [Program.start, XWalkRenderViewHostExt.create] at h
      · exact ⟨pre, d, post, heq, hpost, ((key pre d post heq hpost).2).1 hflag⟩
    · rintro ⟨pre, d, post, heq, hpost, hmark⟩
      exact ((key pre d post heq hpost).2).2 hmark
  · intro pre d post heq hpost
    exact (key pre d post heq hpost).1
  · intro hnone
    exact (Program.run_hit_test base Program.start calls hnone).1
  · intro s
    exact ⟨rfl, rfl, rfl⟩

/-! ## Sequences of calls: request ids -/

theorem wrapInt32_of_range (n : Int) (h1 : -2147483648 ≤ n) (h2 : n < 2147483648) :
    wrapInt32 n = n := by
  unfold wrapInt32
  omega

theorem keys_eraseEntries_subset {V : Type} (k : Int) (l : List (Int × V)) (j : Int)
    (hj : j ∈ (eraseEntries k l).map Prod.fst) : j ∈ l.map Prod.fst :=
  ((sublist_eraseEntries k l).map Prod.fst).subset hj

theorem keys_assignEntries {V : Type} (k : Int) (v : V) (l : List (Int × V)) (j : Int)
    (hj : j ∈ (assignEntries k v l).map Prod.fst) : j = k ∨ j ∈ l.map Prod.fst := by
  obtain ⟨x, hx, rfl⟩ := List.mem_map.1 hj
  rcases mem_assignEntries k v l x hx with h | h
  · exact Or.inl (by rw [h])
  · exact Or.inr (List.mem_map.2 ⟨x, h, rfl⟩)

theorem assignEntries_fresh {V : Type} (k : Int) (v : V) (l : List (Int × V))
    (hk : findEntries k l = none) :
    l.Sublist (assignEntries k v l) ∧ (assignEntries k v l).length = l.length + 1 := by
  induction l with
  | nil => simp [assignEntries]
  | cons e rest ih =>
    unfold findEntries at hk
    split_ifs at hk with h
    unfold assignEntries
    split_ifs with h1 h2
    · exact ⟨List.sublist_cons_self _ _, rfl⟩
    · exact absurd h2.symm h
    · exact ⟨(ih hk).1.cons₂ _, by simp [(ih hk).2]⟩

theorem OnDocumentHasImagesResponse_keys {H : Type} (s : XWalkRenderViewHostExt H)
    (msg_id : Int) (has_images : Bool) (j : Int)
    (hj : j ∈ (s.OnDocumentHasImagesResponse msg_id
      has_images).1.pending_document_has_images_requests_.keys) :
    j ∈ s.pending_document_has_images_requests_.keys := by
  unfold XWalkRenderViewHostExt.OnDocumentHasImagesResponse at hj
  cases hf : s.pending_document_has_images_requests_.find msg_id with
  | none => simpa [hf] using hj
  | some cb =>
    simp only [hf, StdMap.keys, StdMap.erase] at hj
    exact keys_eraseEntries_subset _ _ _ hj

namespace Program

variable {H : Type}

theorem step_next_id (base : IPCMessage H → Bool) (p : Program H) (c : Call H) :
    (step base p c).next_id
      = if c.isRequest = true then wrapInt32 (p.next_id + 1) else p.next_id := by
  cases c with
  | DocumentHasImages wc result =>
    cases hwc : wc.hasRenderViewHost <;>
      simp [step, XWalkRenderViewHostExt.DocumentHasImages, Call.isRequest, hwc]
  | _ => simp [step, continueWith, Call.isRequest]

theorem step_keys (base : IPCMessage H → Bool) (p : Program H) (c : Call H) (j : Int)
    (hj : j ∈ (step base p c).self.pending_document_has_images_requests_.keys) :
    j ∈ p.self.pending_document_has_images_requests_.keys ∨
      (c.isRequest = true ∧ j = p.next_id) := by
  cases c with
  | OnMessageReceived message =>
    cases message with
    | XWalkViewHostMsg_DocumentHasImagesResponse msg_id has_images =>
      exact Or.inl (OnDocumentHasImagesResponse_keys p.self msg_id has_images j hj)
    | XWalkViewHostMsg_UpdateHitTestData d => exact Or.inl hj
    | Unhandled t pl => exact Or.inl hj
  | DocumentHasImages wc result =>
    cases hwc : wc.hasRenderViewHost with
    | false =>
      simp only [step, XWalkRenderViewHostExt.DocumentHasImages, hwc] at hj
      exact Or.inl hj
    | true =>
      simp only [step, XWalkRenderViewHostExt.DocumentHasImages, hwc, StdMap.keys,
        StdMap.assign] at hj
      rcases keys_assignEntries _ _ _ _ hj with h | h
      · exact Or.inr ⟨hwc, h⟩
      · exact Or.inl h
  | SetOriginAccessWhitelist b m =>
    cases hcr : p.self.is_render_view_created_ <;>
      simp only [step, continueWith, XWalkRenderViewHostExt.SetOriginAccessWhitelist, hcr] at hj
    · exact Or.inl hj
    · exact Or.inl hj
  | OnPageScaleFactorChanged b f =>
    cases b <;> exact Or.inl hj
  | _ => exact Or.inl hj

theorem requestsMade_snoc (xs : List (Call H)) (c : Call H) :
    requestsMade (xs ++ [c]) = requestsMade xs + (if c.isRequest = true then 1 else 0) := by
  simp [requestsMade, List.countP_append, List.countP_cons]

/-- While fewer than `2^31 - 1` request ids have been taken, the counter is one
more than the number taken, and every pending key is an id already taken. -/
theorem run_next_id [Inhabited H] (base : IPCMessage H → Bool) (calls : List (Call H))
    (h : requestsMade calls < 2147483647) :
    (run base start calls).next_id = (requestsMade calls : Int) + 1 ∧
    ∀ j ∈ (run base start calls).self.pending_document_has_images_requests_.keys,
      1 ≤ j ∧ j ≤ (requestsMade calls : Int) := by
  induction calls using List.reverseRecOn with
  | nil =>
    refine ⟨by simp [run_nil, start, requestsMade], ?_⟩
    intro j hj
    simp [run_nil, start, XWalkRenderViewHostExt.create, StdMap.keys, StdMap.empty] at hj
  | append_singleton xs c ih =>
    rw [requestsMade_snoc] at h ⊢
    have hxs : requestsMade xs < 2147483647 := by omega
    obtain ⟨hid, hkeys⟩ := ih hxs
    rw [run_snoc]
    constructor
    · rw [step_next_id, hid]
      by_cases hc : c.isRequest = true
      · simp only [hc, if_true] at h ⊢
        rw [wrapInt32_of_range _ (by omega) (by omega)]
        push_cast
        ring
      · simp only [hc, if_false] at h ⊢
        simp
    · intro j hj
      rcases step_keys base _ c j hj with hold | ⟨hc, hnew⟩
      · have := hkeys j hold
        constructor
        · exact this.1
        · push_cast
          split_ifs <;> omega
      · rw [hid] at hnew
        simp only [hc, if_true]
        push_cast
        omega

end Program

/-- C7: let `n` request ids have been taken from the counter since program
start by the calls made so far, `n < 2^31 - 1`, the object being freshly
constructed at the start. A further `DocumentHasImages(result)`
with a render view host reads the id `n + 1` from the counter; that id is not yet
a key of the pending-request map; the call's only effect is one
DocumentHasImages message carrying the routing id and `n + 1` (so `result` is
not run); afterwards `n + 1` maps to `result`, every other key maps to what it
mapped to before, all old entries are still there in order with exactly one
entry more, no other field has changed, and the counter has moved on by one
(wrapping as a 32-bit `int`). -/
theorem DocumentHasImages_with_render_view_host {H : Type} [Inhabited H]
    (base : IPCMessage H → Bool) (calls : List (Call H)) (wc : WebContents)
    (result : DocumentHasImagesResult)
    (hwc : wc.hasRenderViewHost = true) (hcount : requestsMade calls < 2147483647) :
    (Program.run base Program.start calls).next_id = (requestsMade calls : Int) + 1 ∧
    (Program.run base Program.start calls).self.pending_document_has_images_requests_.find
      ((requestsMade calls : Int) + 1) = none ∧
    (Program.run base Program.start (calls ++ [Call.DocumentHasImages wc result])).effects
      = (Program.run base Program.start calls).effects
        ++ [Effect.Send (XWalkViewMsg.DocumentHasImages wc.routingID
              ((requestsMade calls : Int) + 1))] ∧
    (Program.run base Program.start
      (calls ++ [Call.DocumentHasImages wc result])).self.pending_document_has_images_requests_.find
        ((requestsMade calls : Int) + 1) = some result ∧
    (∀ k, k ≠ (requestsMade calls : Int) + 1 →
      (Program.run base Program.start
        (calls ++ [Call.DocumentHasImages wc
          result])).self.pending_document_has_images_requests_.find k
        = (Program.run base Program.start calls).self.pending_document_has_images_requests_.find
            k) ∧
    (Program.run base Program.start calls).self.pending_document_has_images_requests_.entries.Sublist
      (Program.run base Program.start
        (calls ++ [Call.DocumentHasImages wc
          result])).self.pending_document_has_images_requests_.entries ∧
    (Program.run base Program.start
      (calls ++ [Call.DocumentHasImages wc
        result])).self.pending_document_has_images_requests_.entries.length
      = (Program.run base Program.start
          calls).self.pending_document_has_images_requests_.entries.length + 1 ∧
    (Program.run base Program.start (calls ++ [Call.DocumentHasImages wc result])).self
      = { (Program.run base Program.start calls).self with
          pending_document_has_images_requests_ :=
            (Program.run base Program.start
              (calls ++ [Call.DocumentHasImages wc
                result])).self.pending_document_has_images_requests_ } ∧
    (Program.run base Program.start (calls ++ [Call.DocumentHasImages wc result])).next_id
      = wrapInt32 ((requestsMade calls : Int) + 2) := by
  obtain ⟨hid, hkeys⟩ := Program.run_next_id base calls hcount
  have hfresh : (Program.run base Program.start
      calls).self.pending_document_has_images_requests_.find
        ((requestsMade calls : Int) + 1) = none := by
    rw [StdMap.find, findEntries_eq_none_iff]
    intro hmem
    have := (hkeys _ hmem).2
    omega
  have hstep : Program.run base Program.start (calls ++ [Call.DocumentHasImages wc result])
      = { next_id := wrapInt32 ((requestsMade calls : Int) + 1 + 1),
          self := { (Program.run base Program.start calls).self with
            pending_document_has_images_requests_ :=
              (Program.run base Program.start
                calls).self.pending_document_has_images_requests_.assign
                  ((requestsMade calls : Int) + 1) result },
          effects := (Program.run base Program.start calls).effects
            ++ [Effect.Send (XWalkViewMsg.DocumentHasImages wc.routingID
                  ((requestsMade calls : Int) + 1))] } := by
    rw [Program.run_snoc]
    simp [Program.step, DocumentHasImages, hwc, hid]
  have hfr := assignEntries_fresh ((requestsMade calls : Int) + 1) result _ hfresh
  refine ⟨hid, hfresh, ?_, ?_, ?_, ?_, ?_, ?_, ?_⟩
  · rw [hstep]
  · rw [hstep]
    exact findEntries_assignEntries_self _ _ _
  · intro k hk
    rw [hstep]
    exact findEntries_assignEntries_other _ _ _ _ hk
  · rw [hstep]
    exact hfr.1
  · rw [hstep]
    exact hfr.2
  · rw [hstep]
  · rw [hstep]
    show wrapInt32 ((requestsMade calls : Int) + 1 + 1) = wrapInt32 ((requestsMade calls : Int) + 2)
    rw [add_assoc]
    rfl

theorem DocumentHasImages_with_render_view_host_witness :
    (WebContents.mk true 5).hasRenderViewHost = true ∧
    requestsMade [(Call.DocumentHasImages (WebContents.mk true 9)
      (DocumentHasImagesResult.mk 0) : Call Nat)] < 2147483647 ∧
    (Program.run (fun _ => false) (Program.start : Program Nat)
      ([Call.DocumentHasImages (WebContents.mk true 9) (DocumentHasImagesResult.mk 0)]
        ++ [Call.DocumentHasImages (WebContents.mk true 5)
              (DocumentHasImagesResult.mk 1)])).self.pending_document_has_images_requests_.find
      ((requestsMade [(Call.DocumentHasImages (WebContents.mk true 9)
        (DocumentHasImagesResult.mk 0) : Call Nat)] : Int) + 1)
      = some (DocumentHasImagesResult.mk 1) :=
  ⟨rfl, by decide,
    (DocumentHasImages_with_render_view_host (fun _ => false)
      [Call.DocumentHasImages (WebContents.mk true 9) (DocumentHasImagesResult.mk 0)]
      (WebContents.mk true 5) (DocumentHasImagesResult.mk 1) rfl (by decide)).2.2.2.1⟩

/-- C1 fails on the code: `RenderProcessGone` runs the pending callbacks and
leaves them in the map. One callback handed to `DocumentHasImages` is run by
each of two `RenderProcessGone` calls; it is still pending after the first; and
a response for its id after a `RenderProcessGone` runs it a second time. -/
theorem RenderProcessGone_runs_callback_again :
    (Program.run (fun _ => false) (Program.start : Program Nat)
      [Call.DocumentHasImages (WebContents.mk true 5) (DocumentHasImagesResult.mk 0),
       Call.RenderProcessGone,
       Call.RenderProcessGone]).effects
      = [Effect.Send (XWalkViewMsg.DocumentHasImages 5 1),
         Effect.Run (DocumentHasImagesResult.mk 0) false,
         Effect.Run (DocumentHasImagesResult.mk 0) false] ∧
    (Program.run (fun _ => false) (Program.start : Program Nat)
      [Call.DocumentHasImages (WebContents.mk true 5) (DocumentHasImagesResult.mk 0),
       Call.RenderProcessGone]).self.pending_document_has_images_requests_.find 1
      = some (DocumentHasImagesResult.mk 0) ∧
    (Program.run (fun _ => false) (Program.start : Program Nat)
      [Call.DocumentHasImages (WebContents.mk true 5) (DocumentHasImagesResult.mk 0),
       Call.RenderProcessGone,
       Call.OnMessageReceived
         (IPCMessage.XWalkViewHostMsg_DocumentHasImagesResponse 1 true)]).effects
      = [Effect.Send (XWalkViewMsg.DocumentHasImages 5 1),
         Effect.Run (DocumentHasImagesResult.mk 0) false,
         Effect.Run (DocumentHasImagesResult.mk 0) true] := by
  refine ⟨?_, ?_, ?_⟩ <;> decide

end xwalk
